import Mathlib

/-!
Verification development for the ServiceNow-to-RAG conversion script
(`src/main.py`).  The Python source is shallowly embedded below:

* `PyDateTime` models `datetime.datetime` values (Nat fields).
* `parse_date` models `Record.parse_date`, i.e. `datetime.strptime(s,
  "%Y-%m-%d %H:%M:%S")` wrapped in `try/except ValueError`.  CPython's
  `_strptime` compiles this format to the regex
  `(\d\d\d\d)-(1[0-2]|0[1-9]|[1-9])-(3[01]|[12]\d|0[1-9]|[1-9])\s+`
  `(2[0-3]|[0-1]\d|\d):([0-5]\d|\d):(6[0-1]|[0-5]\d|\d)`
  matched at the start of the input (ordered alternation with
  backtracking), then raises ValueError when unconverted data remains;
  the resulting fields go through the `datetime` constructor's range
  checks.  We model the ASCII fragment of `\d` and `\s` (Python's
  Unicode digits/spaces are not modelled).
* `Record` / `mkRecordE` model `Record.__init__`; a missing key is a
  `KeyError`, modelled as `Except.error key`.
* `compactNewlines` models `re.sub(r'\n+', '\n', s)` (each maximal run
  of newlines becomes a single newline).
* `subEsc` models
  `re.sub(r"Escalate in \d+ minutes to [^\n]+\n", "", s)`
  (leftmost non-overlapping matches removed, scanning resumes after
  each removed match).
* `pyReplace` models `str.replace` (all non-overlapping occurrences,
  left to right; the replacement text is not rescanned).
* `print_record`, `load_csv_to_dict`, `save_to_text`,
  `get_most_recent_record` model the remaining functions; code that can
  raise returns `Option`/`Except`, with `none`/`.error` for an uncaught
  Python exception.
-/

/-- Model of `datetime.datetime` (the fields the script uses). -/
structure PyDateTime where
  year : Nat
  month : Nat
  day : Nat
  hour : Nat
  minute : Nat
  second : Nat
deriving DecidableEq

/-- ASCII decimal digit, the fragment of the regex class `\d` that the
claims exercise. -/
def isDig (c : Char) : Bool :=
  c = '0' || c = '1' || c = '2' || c = '3' || c = '4' ||
  c = '5' || c = '6' || c = '7' || c = '8' || c = '9'

/-- Numeric value of a digit character. -/
def digitVal (c : Char) : Nat := c.toNat - 48

/-- ASCII fragment of the regex class `\s` (also the characters
`str.strip` removes). -/
def isPySpace (c : Char) : Bool :=
  c = ' ' || c = '\t' || c = '\n' || c = '\r' || c = '\x0b' || c = '\x0c'

/-- Literal `:` of the time format. -/
def pColon : List Char → Option (List Char)
  | ':' :: r => some r
  | _ => none

/-- Literal `-` of the date format. -/
def pDash : List Char → Option (List Char)
  | '-' :: r => some r
  | _ => none

/-- Regex `%S` = `6[0-1]|[0-5]\d|\d`, tried in that order (nothing
follows it in the pattern, so no continuation is needed). -/
def pSec : List Char → Option (Nat × List Char)
  | a :: b :: r =>
    if a = '6' && (b = '0' || b = '1') then some (60 + digitVal b, r)
    else if ('0' ≤ a && a ≤ '5') && isDig b then
      some (digitVal a * 10 + digitVal b, r)
    else if isDig a then some (digitVal a, b :: r)
    else none
  | [a] => if isDig a then some (digitVal a, []) else none
  | [] => none

/-- Regex `%M` = `[0-5]\d|\d` followed by `:` and `%S`; the second
alternative is tried when the first fails or its continuation fails
(regex backtracking). -/
def pMinSec (l : List Char) : Option (Nat × Nat × List Char) :=
  (match l with
   | a :: b :: r =>
     if ('0' ≤ a && a ≤ '5') && isDig b then
       (pColon r).bind fun r2 =>
         (pSec r2).map fun p => (digitVal a * 10 + digitVal b, p.1, p.2)
     else none
   | _ => none)
  <|>
  (match l with
   | a :: r =>
     if isDig a then
       (pColon r).bind fun r2 =>
         (pSec r2).map fun p => (digitVal a, p.1, p.2)
     else none
   | _ => none)

/-- Regex `%H` = `2[0-3]|[0-1]\d|\d` followed by `:` and the rest of
the time, alternatives tried in regex order with backtracking. -/
def pHourMS (l : List Char) : Option (Nat × Nat × Nat × List Char) :=
  (match l with
   | a :: b :: r =>
     if a = '2' && ('0' ≤ b && b ≤ '3') then
       (pColon r).bind fun r2 =>
         (pMinSec r2).map fun p => (digitVal a * 10 + digitVal b, p)
     else none
   | _ => none)
  <|>
  (match l with
   | a :: b :: r =>
     if ('0' ≤ a && a ≤ '1') && isDig b then
       (pColon r).bind fun r2 =>
         (pMinSec r2).map fun p => (digitVal a * 10 + digitVal b, p)
     else none
   | _ => none)
  <|>
  (match l with
   | a :: r =>
     if isDig a then
       (pColon r).bind fun r2 =>
         (pMinSec r2).map fun p => (digitVal a, p)
     else none
   | _ => none)

/-- The `\s+` separating date and time: one or more whitespace
characters, consumed greedily (every `%H` alternative starts with a
digit, so a shorter match can never succeed). -/
def pWsTime (l : List Char) : Option (Nat × Nat × Nat × List Char) :=
  match l with
  | c :: r =>
    if isPySpace c then pHourMS (r.dropWhile fun x => isPySpace x)
    else none
  | [] => none

/-- Regex `%d` = `3[01]|[12]\d|0[1-9]|[1-9]` followed by `\s+` and the
time, alternatives in regex order with backtracking. -/
def pDayRest (l : List Char) : Option (Nat × Nat × Nat × Nat × List Char) :=
  (match l with
   | a :: b :: r =>
     if a = '3' && (b = '0' || b = '1') then
       (pWsTime r).map fun p => (digitVal a * 10 + digitVal b, p)
     else none
   | _ => none)
  <|>
  (match l with
   | a :: b :: r =>
     if (a = '1' || a = '2') && isDig b then
       (pWsTime r).map fun p => (digitVal a * 10 + digitVal b, p)
     else none
   | _ => none)
  <|>
  (match l with
   | a :: b :: r =>
     if a = '0' && ('1' ≤ b && b ≤ '9') then
       (pWsTime r).map fun p => (digitVal a * 10 + digitVal b, p)
     else none
   | _ => none)
  <|>
  (match l with
   | a :: r =>
     if '1' ≤ a && a ≤ '9' then
       (pWsTime r).map fun p => (digitVal a, p)
     else none
   | _ => none)

/-- Regex `%m` = `1[0-2]|0[1-9]|[1-9]` followed by `-` and the rest,
alternatives in regex order with backtracking. -/
def pMonthRest (l : List Char) :
    Option (Nat × Nat × Nat × Nat × Nat × List Char) :=
  (match l with
   | a :: b :: r =>
     if a = '1' && ('0' ≤ b && b ≤ '2') then
       (pDash r).bind fun r2 =>
         (pDayRest r2).map fun p => (digitVal a * 10 + digitVal b, p)
     else none
   | _ => none)
  <|>
  (match l with
   | a :: b :: r =>
     if a = '0' && ('1' ≤ b && b ≤ '9') then
       (pDash r).bind fun r2 =>
         (pDayRest r2).map fun p => (digitVal a * 10 + digitVal b, p)
     else none
   | _ => none)
  <|>
  (match l with
   | a :: r =>
     if '1' ≤ a && a ≤ '9' then
       (pDash r).bind fun r2 =>
         (pDayRest r2).map fun p => (digitVal a, p)
     else none
   | _ => none)

/-- The whole `_strptime` regex for `"%Y-%m-%d %H:%M:%S"`: `%Y` is
exactly four digits, then `-`, then the rest. -/
def strptimeFields (l : List Char) :
    Option (Nat × Nat × Nat × Nat × Nat × Nat × List Char) :=
  match l with
  | y1 :: y2 :: y3 :: y4 :: r =>
    if isDig y1 && isDig y2 && isDig y3 && isDig y4 then
      (pDash r).bind fun r2 =>
        (pMonthRest r2).map fun p =>
          (digitVal y1 * 1000 + digitVal y2 * 100 + digitVal y3 * 10 +
            digitVal y4, p)
    else none
  | _ => none

/-- `time.strptime` core: regex match at the start of the string, then
`ValueError` ("unconverted data remains") unless the whole string was
consumed. -/
def pyStrptime (s : String) : Option (Nat × Nat × Nat × Nat × Nat × Nat) :=
  match strptimeFields s.data with
  | some (y, m, d, h, mi, se, rest) =>
    if rest = [] then some (y, m, d, h, mi, se) else none
  | none => none

/-- `calendar` leap-year rule used by `datetime`. -/
def isLeap (y : Nat) : Bool :=
  y % 4 = 0 && (y % 100 ≠ 0 || y % 400 = 0)

/-- Days in a month, as `datetime` validates them. -/
def daysInMonth (y m : Nat) : Nat :=
  if m = 2 then (if isLeap y then 29 else 28)
  else if m = 4 || m = 6 || m = 9 || m = 11 then 30
  else 31

/-- Model of `Record.parse_date`: `datetime.strptime(date_str,
"%Y-%m-%d %H:%M:%S")` with `ValueError` (either from the regex match or
from the `datetime` constructor's range checks) caught and turned into
`None`. -/
def parse_date (date_str : String) : Option PyDateTime :=
  match pyStrptime date_str with
  | none => none
  | some (y, m, d, h, mi, se) =>
    if 1 ≤ y && y ≤ 9999 && 1 ≤ m && m ≤ 12 && 1 ≤ d &&
        d ≤ daysInMonth y m && h ≤ 23 && mi ≤ 59 && se ≤ 59 then
      some ⟨y, m, d, h, mi, se⟩
    else none

/-- Python `str.strip()` (ASCII whitespace fragment). -/
def pyStrip (s : String) : String :=
  ⟨((s.data.dropWhile isPySpace).reverse.dropWhile isPySpace).reverse⟩

/-- Model of `re.sub(r'\n+', '\n', s)` on the character list: a newline
followed by another newline is dropped, so each maximal run of newlines
collapses to its last newline — the same string `re.sub` produces. -/
def compactNewlines : List Char → List Char
  | [] => []
  | [c] => [c]
  | c :: d :: rest =>
    if c = '\n' && d = '\n' then compactNewlines (d :: rest)
    else c :: compactNewlines (d :: rest)

/-- String wrapper for `compactNewlines`. -/
def compactS (s : String) : String := ⟨compactNewlines s.data⟩

/-- First literal of the escalation regex. -/
def escLit1 : List Char := "Escalate in ".data

/-- Second literal of the escalation regex. -/
def escLit2 : List Char := " minutes to ".data

/-- Match a literal: `dropLit p l = some r` when `l = p ++ r`. -/
def dropLit : List Char → List Char → Option (List Char)
  | [], l => some l
  | p :: ps, c :: cs => if c = p then dropLit ps cs else none
  | _ :: _, [] => none

/-- Try the regex `Escalate in \d+ minutes to [^\n]+\n` at the head of
`l`; on success return the remainder after the match.  `\d+` and
`[^\n]+` are greedy and here deterministic: each is followed by a
character its class excludes. -/
def matchEscAt (l : List Char) : Option (List Char) :=
  match dropLit escLit1 l with
  | none => none
  | some r1 =>
    match r1 with
    | [] => none
    | c :: _ =>
      if isDig c then
        match dropLit escLit2 (r1.dropWhile isDig) with
        | none => none
        | some r2 =>
          match r2 with
          | [] => none
          | c2 :: _ =>
            if c2 = '\n' then none
            else
              match r2.dropWhile (fun x => !(x = '\n' : Bool)) with
              | '\n' :: r3 => some r3
              | _ => none
      else none

/-- `re.sub` scan with fuel: at each position try the pattern; on a
match emit nothing and resume after the match, otherwise keep the
character and move one position right.  Each step consumes at least one
character, so `l.length` fuel suffices. -/
def subEscAux : Nat → List Char → List Char
  | 0, l => l
  | _ + 1, [] => []
  | fuel + 1, c :: cs =>
    match matchEscAt (c :: cs) with
    | some rest => subEscAux fuel rest
    | none => c :: subEscAux fuel cs

/-- Model of `re.sub(r"Escalate in \d+ minutes to [^\n]+\n", "", s)`
(the `re.DOTALL` flag is irrelevant: the pattern contains no `.`). -/
def subEsc (l : List Char) : List Char := subEscAux l.length l

/-- String wrapper for `subEsc`. -/
def subEscS (s : String) : String := ⟨subEsc s.data⟩

/-- `str.replace` scan with fuel: non-overlapping occurrences replaced
left to right, replacement text not rescanned. -/
def replaceAllAux (pat repl : List Char) : Nat → List Char → List Char
  | _, [] => []
  | 0, l => l
  | fuel + 1, c :: cs =>
    if pat.isPrefixOf (c :: cs) then
      repl ++ replaceAllAux pat repl fuel (cs.drop (pat.length - 1))
    else c :: replaceAllAux pat repl fuel cs

/-- Model of Python `str.replace(pat, repl)`.  The source only calls it
with non-empty patterns; the empty-pattern case (Python would interleave
`repl` everywhere) is not modelled. -/
def pyReplace (s pat repl : String) : String :=
  if pat.data = [] then s
  else ⟨replaceAllAux pat.data repl.data s.data.length s.data⟩

/-- Python's substring test `needle in haystack`: some suffix of the
haystack starts with the needle. -/
def containsSub : List Char → List Char → Bool
  | [], needle => needle.isPrefixOf []
  | h :: t, needle => needle.isPrefixOf (h :: t) || containsSub t needle

/-- Model of the `Record` object after `__init__`: raw fields plus the
derived compact/cleaned variants. -/
structure Record where
  number : String
  opened_at : Option PyDateTime
  description : String
  description_compact : String
  short_description : String
  caller_id : String
  category : String
  assignment_group : String
  assigned_to : String
  work_notes : String
  work_notes_compact : String
  resolved_at : Option PyDateTime
  resolved_by : String
  close_notes : String
  close_notes_compact : String
  work_notes_compact_cleaned : String
  work_notes_compact_cleaned_further : String
deriving DecidableEq

/-- A CSV row as `csv.DictReader` hands it to `Record.__init__`. -/
abbrev Row := List (String × String)

/-- Dictionary lookup `row_dict[key]`; a missing key raises
`KeyError(key)`. -/
def rowGet (row : Row) (key : String) : Except String String :=
  match row.lookup key with
  | some v => Except.ok v
  | none => Except.error key

/-- Model of `Record.__init__(row_dict)`: field-by-key lookup in source
order, then the derived-field pipeline.  A missing key propagates as
`Except.error key` (Python `KeyError`). -/
def mkRecordE (row : Row) : Except String Record := do
  let number ← rowGet row "number"
  let opened_at_raw ← rowGet row "opened_at"
  let description_raw ← rowGet row "description"
  let short_description_raw ← rowGet row "short_description"
  let caller_id ← rowGet row "caller_id"
  let category ← rowGet row "category"
  let assignment_group ← rowGet row "assignment_group"
  let assigned_to ← rowGet row "assigned_to"
  let work_notes_raw ← rowGet row "work_notes"
  let resolved_at_raw ← rowGet row "resolved_at"
  let resolved_by ← rowGet row "resolved_by"
  let close_notes_raw ← rowGet row "close_notes"
  let description := pyStrip description_raw
  let work_notes := pyStrip work_notes_raw
  let close_notes := pyStrip close_notes_raw
  let work_notes_compact := compactS work_notes
  let work_notes_compact_cleaned := subEscS work_notes_compact
  pure {
    number := number
    opened_at := parse_date opened_at_raw
    description := description
    description_compact := compactS description
    short_description := pyStrip short_description_raw
    caller_id := caller_id
    category := category
    assignment_group := assignment_group
    assigned_to := assigned_to
    work_notes := work_notes
    work_notes_compact := work_notes_compact
    resolved_at := parse_date resolved_at_raw
    resolved_by := resolved_by
    close_notes := close_notes
    close_notes_compact := compactS close_notes
    work_notes_compact_cleaned := work_notes_compact_cleaned
    work_notes_compact_cleaned_further :=
      pyReplace (pyReplace work_notes_compact_cleaned " (Work notes)" "")
        "This incident escalation is in progress using the following escalation plan:"
        "Escalation in progress." }

/-- Zero-pad to two digits (`strftime` `%d`, `%m`, `%H`, `%M`, `%S`). -/
def pad2 (n : Nat) : String :=
  if n < 10 then "0" ++ toString n else toString n

/-- Zero-pad to four digits (`strftime` `%Y`; all claim-relevant years
are four-digit, where padding is a no-op). -/
def pad4 (n : Nat) : String :=
  if n < 10 then "000" ++ toString n
  else if n < 100 then "00" ++ toString n
  else if n < 1000 then "0" ++ toString n
  else toString n

/-- `strftime('%B')` month names. -/
def monthName (m : Nat) : String :=
  ["January", "February", "March", "April", "May", "June", "July",
   "August", "September", "October", "November", "December"].getD (m - 1) ""

/-- `strftime('%B %d, %Y')` used in the block header. -/
def strftimeHeader (dt : PyDateTime) : String :=
  monthName dt.month ++ " " ++ pad2 dt.day ++ ", " ++ pad4 dt.year

/-- `strftime('%Y-%m-%d_%H-%M-%S')` used for the output filename. -/
def strftimeFilename (dt : PyDateTime) : String :=
  pad4 dt.year ++ "-" ++ pad2 dt.month ++ "-" ++ pad2 dt.day ++ "_" ++
    pad2 dt.hour ++ "-" ++ pad2 dt.minute ++ "-" ++ pad2 dt.second

/-- The fixed tail of every block: the f-string's final line break,
three `\n` escapes, the 62-dash separator line, and four `\n`s. -/
def sepBlock : String :=
  "\n\n\n\n--------------------------------------------------------------\n\n\n\n"

/-- Body of `print_record` when the work-notes section is included. -/
def printBlockWith (r : Record) (dt : PyDateTime) : String :=
  r.number ++ " | " ++ strftimeHeader dt ++ "\n" ++
    "Submitted by: " ++ r.caller_id ++ " | Resolved by: " ++ r.resolved_by ++
    "\n" ++ "---- Problem:\n" ++ r.description_compact ++ "\n" ++
    "---- Solution:\n" ++ r.close_notes_compact ++ "\n" ++
    "---- Work Notes:\n" ++ r.work_notes_compact_cleaned_further ++ sepBlock

/-- Body of `print_record` without the work-notes section. -/
def printBlockWithout (r : Record) (dt : PyDateTime) : String :=
  r.number ++ " | " ++ strftimeHeader dt ++ "\n" ++
    "Submitted by: " ++ r.caller_id ++ " | Resolved by: " ++ r.resolved_by ++
    "\n" ++ "---- Problem:\n" ++ r.description_compact ++ "\n" ++
    "---- Solution:\n" ++ r.close_notes_compact ++ sepBlock

/-- Model of `Record.print_record`: both branches format
`self.opened_at.strftime(...)`, which raises `AttributeError` when
`opened_at` is `None` — modelled as `none`.  The work-notes section is
emitted when `print_work_notes` is true and `work_notes` is a non-empty
(truthy) string. -/
def print_record (r : Record) (print_work_notes : Bool) : Option String :=
  match r.opened_at with
  | none => none
  | some dt =>
    if print_work_notes && !(r.work_notes = "" : Bool) then
      some (printBlockWith r dt)
    else some (printBlockWithout r dt)

/-- Lexicographic (field-by-field) strict comparison of datetimes, how
Python compares `datetime` objects. -/
def dtLtb (a b : PyDateTime) : Bool :=
  if a.year ≠ b.year then decide (a.year < b.year)
  else if a.month ≠ b.month then decide (a.month < b.month)
  else if a.day ≠ b.day then decide (a.day < b.day)
  else if a.hour ≠ b.hour then decide (a.hour < b.hour)
  else if a.minute ≠ b.minute then decide (a.minute < b.minute)
  else decide (a.second < b.second)

/-- The `key=lambda record: record.resolved_at` of `max`; only applied
to records the generator let through, i.e. with `resolved_at` set. -/
def resolvedKey (r : Record) : PyDateTime :=
  r.resolved_at.getD ⟨0, 0, 0, 0, 0, 0⟩

/-- Python `max(iterable, key=..., default=None)`: scan left to right,
replace the current maximum only on a strictly larger key (so the first
of equal keys wins). -/
def pyMaxByResolved : List Record → Option Record
  | [] => none
  | r :: rs =>
    some (rs.foldl
      (fun best x => if dtLtb (resolvedKey best) (resolvedKey x) then x else best)
      r)

/-- Model of `get_most_recent_record`: `max` over the records whose
`resolved_at` is truthy (a `datetime` is always truthy, `None` is
falsy), with `default=None`. -/
def get_most_recent_record (records : List Record) : Option Record :=
  pyMaxByResolved (records.filter fun r => r.resolved_at.isSome)

/-- Outcome of one attempted `open(filename, encoding=...)` plus the
full read/decode, as the Loader observes it. -/
inductive ReadOutcome where
  | ok (rows : List Row)
  | decodeError
  | fileNotFound
  | otherError (msg : String)

/-- The encodings `load_csv_to_dict` tries, in order. -/
def encodings : List String := ["utf-8", "iso-8859-1", "windows-1252"]

/-- The encoding loop of `load_csv_to_dict`.  The `try` block covers the
row comprehension, so a `KeyError` from `Record.__init__` is caught by
`except Exception` (its `str` is the quoted key) and yields an empty
list, exactly like the other error arms; only `UnicodeDecodeError`
moves on to the next encoding.  Returns the printed messages together
with the records. -/
def loadAux (filename : String) (read : String → ReadOutcome) :
    List String → Except String (List String × List Record)
  | [] =>
    Except.ok (["Failed to read the file with any of the tried encodings."], [])
  | enc :: rest =>
    match read enc with
    | ReadOutcome.ok rows =>
      match rows.mapM mkRecordE with
      | Except.ok records =>
        Except.ok (["\nFile read successfully with " ++ enc ++ " encoding.\n"],
          records)
      | Except.error key =>
        Except.ok (["An error occurred: " ++ "\x27" ++ key ++ "\x27"], [])
    | ReadOutcome.decodeError => loadAux filename read rest
    | ReadOutcome.fileNotFound =>
      Except.ok (["The file " ++ "\x27" ++ filename ++ "\x27" ++ " does not exist."], [])
    | ReadOutcome.otherError msg =>
      Except.ok (["An error occurred: " ++ msg], [])

/-- Model of `load_csv_to_dict`.  The result is `Except.error` only if
an exception escapes the function — the theorems show none ever does. -/
def load_csv_to_dict (filename : String) (read : String → ReadOutcome) :
    Except String (List String × List Record) :=
  loadAux filename read encodings

/-- What `save_to_text` managed to put in the file, and whether the
write loop completed (`False` means an exception was caught mid-loop,
leaving a partial file). -/
structure SaveOutcome where
  filename : String
  content : String
  success : Bool
deriving DecidableEq

/-- The write loop of `save_to_text`: append blocks until
`print_record` raises (a record with `opened_at = None`), which aborts
the loop — everything already written stays in the file, nothing is
written for the failing record or those after it. -/
def writeBlocks : List Record → String × Bool
  | [] => ("", true)
  | r :: rs =>
    match print_record r true with
    | none => ("", false)
    | some block =>
      let p := writeBlocks rs
      (block ++ p.1, p.2)

/-- Model of `save_to_text`.  The filename derivation
`get_most_recent_record(records).resolved_at.strftime(...) or 'unknown'`
runs before the `try` block: when no record has a resolved date the
`max` default `None` is dereferenced and the `AttributeError` escapes
(`none`) with no file opened.  Otherwise the file is opened and blocks
are written in list order; `or 'unknown'` would replace only an empty
timestamp string. -/
def save_to_text (records : List Record) : Option SaveOutcome :=
  match get_most_recent_record records with
  | none => none
  | some m =>
    match m.resolved_at with
    | none => none
    | some dt =>
      let ts := strftimeFilename dt
      let mostrecentdate := if ts = "" then "unknown" else ts
      let p := writeBlocks records
      some ⟨mostrecentdate ++ ".txt", p.1, p.2⟩

/-- Test fixture: a record with every text field empty and both
timestamps absent. -/
def blankRecord : Record where
  number := ""
  opened_at := none
  description := ""
  description_compact := ""
  short_description := ""
  caller_id := ""
  category := ""
  assignment_group := ""
  assigned_to := ""
  work_notes := ""
  work_notes_compact := ""
  resolved_at := none
  resolved_by := ""
  close_notes := ""
  close_notes_compact := ""
  work_notes_compact_cleaned := ""
  work_notes_compact_cleaned_further := ""

/-- Test fixture: resolved 2024-01-01 10:00:00 (first record of the
spec's `get_most_recent_record` example). -/
def recJan : Record :=
  { blankRecord with
    number := "INC001"
    opened_at := some ⟨2024, 1, 1, 9, 0, 0⟩
    resolved_at := some ⟨2024, 1, 1, 10, 0, 0⟩ }

/-- Test fixture: resolved 2024-03-05 09:00:00 (second record of the
spec's `get_most_recent_record` example). -/
def recMar : Record :=
  { blankRecord with
    number := "INC002"
    opened_at := some ⟨2024, 3, 1, 9, 0, 0⟩
    resolved_at := some ⟨2024, 3, 5, 9, 0, 0⟩ }

/-- Test fixture: a record whose `resolved_at` is absent (row with an
empty `resolved_at` string). -/
def recNullResolved : Record :=
  { blankRecord with
    number := "INC003"
    opened_at := some ⟨2024, 2, 1, 9, 0, 0⟩ }

/-- Test fixture: resolved but with an unparseable open date
(`opened_at = None`), the shape that makes `print_record` raise. -/
def recNullOpened : Record :=
  { blankRecord with
    number := "INC004"
    resolved_at := some ⟨2024, 1, 1, 10, 0, 0⟩ }

/-- Formalisation of the spec's words for claim C4: a well-formed
`"YYYY-MM-DD HH:MM:SS"` string — nineteen characters, zero-padded
digit groups in those exact positions, and field values that form a
valid calendar date and time — together with the timestamp its digits
spell.  This definition follows the spec, not the source, and is
compared against `parse_date`. -/
def specWellFormedTimestamp (s : String) : Option PyDateTime :=
  match s.data with
  | [y1, y2, y3, y4, c1, m1, m2, c2, d1, d2, c3, h1, h2, c4, n1, n2, c5, s1, s2] =>
    if (c1 = '-' && c2 = '-' && c3 = ' ' && c4 = ':' && c5 = ':') &&
        (isDig y1 && isDig y2 && isDig y3 && isDig y4) &&
        (isDig m1 && isDig m2) && (isDig d1 && isDig d2) &&
        (isDig h1 && isDig h2) && (isDig n1 && isDig n2) &&
        (isDig s1 && isDig s2) then
      if 1 ≤ digitVal y1 * 1000 + digitVal y2 * 100 + digitVal y3 * 10 + digitVal y4 &&
          1 ≤ digitVal m1 * 10 + digitVal m2 && digitVal m1 * 10 + digitVal m2 ≤ 12 &&
          1 ≤ digitVal d1 * 10 + digitVal d2 &&
          digitVal d1 * 10 + digitVal d2 ≤
            daysInMonth
              (digitVal y1 * 1000 + digitVal y2 * 100 + digitVal y3 * 10 + digitVal y4)
              (digitVal m1 * 10 + digitVal m2) &&
          digitVal h1 * 10 + digitVal h2 ≤ 23 &&
          digitVal n1 * 10 + digitVal n2 ≤ 59 &&
          digitVal s1 * 10 + digitVal s2 ≤ 59 then
        some ⟨digitVal y1 * 1000 + digitVal y2 * 100 + digitVal y3 * 10 + digitVal y4,
          digitVal m1 * 10 + digitVal m2, digitVal d1 * 10 + digitVal d2,
          digitVal h1 * 10 + digitVal h2, digitVal n1 * 10 + digitVal n2,
          digitVal s1 * 10 + digitVal s2⟩
      else none
    else none
  | _ => none

/-- The literal example row of the spec (claim C1); the required
metadata columns the example does not mention are present and empty. -/
def c1row : Row :=
  [("number", "INC001"), ("opened_at", "2024-05-01 08:00:00"),
   ("description", "Issue\n\n\nhappened"), ("short_description", "X"),
   ("caller_id", ""), ("category", ""), ("assignment_group", ""),
   ("assigned_to", ""),
   ("work_notes", "Escalate in 15 minutes to L2 Team\n(Work notes)"),
   ("resolved_at", ""), ("resolved_by", ""), ("close_notes", "Fixed it")]

/-- Concatenation of the blocks the write loop produces when every
`print_record` call succeeds. -/
def blocksConcat : List Record → String
  | [] => ""
  | r :: rs => (print_record r true).getD "" ++ blocksConcat rs

/-- No two consecutive newlines (the shape `compactNewlines` produces). -/
def noTwoNl : List Char → Bool
  | c :: d :: rest => !(c = '\n' && d = '\n') && noTwoNl (d :: rest)
  | _ => true

/-- The escalation pattern matches at no position of the list. -/
def noEscAnywhere : List Char → Bool
  | [] => true
  | c :: cs => !(matchEscAt (c :: cs)).isSome && noEscAnywhere cs

/-- A full match of the escalation regex: the two literals, a non-empty
digit run, a non-empty newline-free target, and the terminating
newline. -/
def isEscLine (esc : List Char) : Prop :=
  ∃ ds t, esc = escLit1 ++ ds ++ escLit2 ++ t ++ ['\n'] ∧ ds ≠ [] ∧
    (∀ c ∈ ds, isDig c = true) ∧ t ≠ [] ∧ '\n' ∉ t

set_option maxRecDepth 16384

lemma bool_eq_false {b : Bool} (h : ¬ b = true) : b = false := by
  cases b
  · rfl
  · exact absurd rfl h

lemma compactNewlines_cons (d : Char) (rest : List Char) :
    ∃ t, compactNewlines (d :: rest) = d :: t := by
  induction rest generalizing d with
  | nil => exact ⟨[], rfl⟩
  | cons e r ih =>
    obtain ⟨t, ht⟩ := ih e
    by_cases hc : (d = '\n' && e = '\n') = true
    · rcases (by simpa using hc : d = '\n' ∧ e = '\n') with ⟨h1, h2⟩
      refine ⟨t, ?_⟩
      simp only [compactNewlines, if_pos hc]
      rw [ht, h2, h1]
    · refine ⟨compactNewlines (e :: r), ?_⟩
      simp only [compactNewlines, if_neg hc]

lemma noTwoNl_compactNewlines : ∀ l, noTwoNl (compactNewlines l) = true := by
  intro l
  induction l with
  | nil => rfl
  | cons c tail ih =>
    cases tail with
    | nil => rfl
    | cons d rest =>
      by_cases hc : (c = '\n' && d = '\n') = true
      · simp only [compactNewlines, if_pos hc]
        exact ih
      · simp only [compactNewlines, if_neg hc]
        obtain ⟨t, ht⟩ := compactNewlines_cons d rest
        have ih' := ih
        rw [ht] at ih' ⊢
        simp only [noTwoNl, Bool.and_eq_true]
        exact ⟨by simp [bool_eq_false hc], ih'⟩

lemma compactNewlines_of_noTwoNl : ∀ l, noTwoNl l = true → compactNewlines l = l := by
  intro l
  induction l with
  | nil => intro _; rfl
  | cons c tail ih =>
    cases tail with
    | nil => intro _; rfl
    | cons d rest =>
      intro h
      simp only [noTwoNl, Bool.and_eq_true] at h
      have hcf : (c = '\n' && d = '\n') = false := by
        have := h.1
        cases hb : (c = '\n' && d = '\n' : Bool)
        · rfl
        · rw [hb] at this
          exact absurd this (by simp)
      rw [show compactNewlines (c :: d :: rest) =
          if (c = '\n' && d = '\n') = true then compactNewlines (d :: rest)
          else c :: compactNewlines (d :: rest) from rfl]
      rw [if_neg (by simp [hcf])]
      rw [ih h.2]

/-- C9: the newline compaction `re.sub(r'\n+', '\n', s)` is idempotent —
compacting twice equals compacting once, and a string that is already
the compaction of some string is returned unchanged. -/
theorem thm_C9 :
    (∀ s : String, compactS (compactS s) = compactS s) ∧
    (∀ s : String, (∃ t, s = compactS t) → compactS s = s) := by
  constructor
  · intro s
    show (⟨compactNewlines (compactNewlines s.data)⟩ : String) = ⟨compactNewlines s.data⟩
    rw [compactNewlines_of_noTwoNl _ (noTwoNl_compactNewlines _)]
  · rintro s ⟨t, rfl⟩
    show (⟨compactNewlines (compactNewlines t.data)⟩ : String) = ⟨compactNewlines t.data⟩
    rw [compactNewlines_of_noTwoNl _ (noTwoNl_compactNewlines _)]

/-- Witness for C9: the already-compacted string `"a\nb"` is returned
unchanged. -/
theorem thm_C9_witness : compactS "a\nb" = "a\nb" :=
  thm_C9.2 "a\nb" ⟨"a\n\nb", by decide⟩

/-- C1 counterexample: on the spec's literal example row the cleaned
work notes equal `"(Work notes)"`, so they DO contain the literal
`"(Work notes)"` substring the claim says is absent (the removal
targets `" (Work notes)"` with a leading space, which does not occur). -/
theorem thm_C1_counterexample :
    (mkRecordE c1row).toOption.map
        (fun r => containsSub r.work_notes_compact_cleaned_further.data
          "(Work notes)".data) = some true ∧
    (mkRecordE c1row).toOption.map Record.work_notes_compact_cleaned_further =
      some "(Work notes)" := by
  exact ⟨by decide, by decide⟩

/-- C1 amended: the example row yields `description_compact =
"Issue\nhappened"`, and `work_notes_compact_cleaned_further` contains
neither the escalation line nor the literal `" (Work notes)"` substring
(with its leading space) — but it is exactly `"(Work notes)"`, so the
bare `"(Work notes)"` text remains. -/
theorem thm_C1 :
    (mkRecordE c1row).toOption.map Record.description_compact =
      some "Issue\nhappened" ∧
    (mkRecordE c1row).toOption.map
        (fun r => containsSub r.work_notes_compact_cleaned_further.data
          "Escalate in 15 minutes to L2 Team".data) = some false ∧
    (mkRecordE c1row).toOption.map
        (fun r => containsSub r.work_notes_compact_cleaned_further.data
          " (Work notes)".data) = some false ∧
    (mkRecordE c1row).toOption.map Record.work_notes_compact_cleaned_further =
      some "(Work notes)" := by
  exact ⟨by decide, by decide, by decide, by decide⟩

/-- C3: `print_record` raises (returns `none`) exactly when
`opened_at` is absent; with `opened_at` present it returns a formatted
block for either value of `print_work_notes`. -/
theorem thm_C3 :
    (∀ (r : Record) (b : Bool), r.opened_at = none → print_record r b = none) ∧
    (∀ (r : Record) (b : Bool), r.opened_at ≠ none →
      (print_record r b).isSome = true) := by
  constructor
  · intro r b h
    unfold print_record
    rw [h]
  · intro r b h
    rcases h2 : r.opened_at with _ | dt
    · exact absurd h2 h
    · simp only [print_record, h2]
      split_ifs <;> rfl

/-- Witness for C3 at concrete records: a record with a null open date
makes `print_record` fail, one with a parsed open date succeeds. -/
theorem thm_C3_witness :
    print_record recNullOpened true = none ∧
    (print_record recJan true).isSome = true :=
  ⟨thm_C3.1 recNullOpened true rfl, thm_C3.2 recJan true (by decide)⟩

lemma loadAux_ok (filename : String) (read : String → ReadOutcome) :
    ∀ encs : List String, ∃ v, loadAux filename read encs = Except.ok v := by
  intro encs
  induction encs with
  | nil => exact ⟨_, rfl⟩
  | cons enc rest ih =>
    obtain ⟨v, hv⟩ := ih
    cases hr : read enc with
    | ok rows =>
      cases hm : rows.mapM mkRecordE with
      | ok records =>
        exact ⟨(["\nFile read successfully with " ++ enc ++ " encoding.\n"],
          records), by simp only [loadAux, hr, hm]⟩
      | error key =>
        exact ⟨(["An error occurred: " ++ "\x27" ++ key ++ "\x27"], []),
          by simp only [loadAux, hr, hm]⟩
    | decodeError => exact ⟨v, by simp only [loadAux, hr]; exact hv⟩
    | fileNotFound =>
      exact ⟨(["The file " ++ "\x27" ++ filename ++ "\x27" ++ " does not exist."], []),
        by simp only [loadAux, hr]⟩
    | otherError m =>
      exact ⟨(["An error occurred: " ++ m], []), by simp only [loadAux, hr]⟩

/-- C2 counterexample: a CSV row with no columns at all (so `number` is
missing) does NOT make the error propagate out of the Loader — the
`except Exception` arm catches the `KeyError`, prints it, and
`load_csv_to_dict` returns normally with an empty record list. -/
theorem thm_C2_counterexample :
    load_csv_to_dict "incidents.csv" (fun _ => ReadOutcome.ok [[]]) =
      Except.ok (["An error occurred: " ++ "\x27" ++ "number" ++ "\x27"], []) := by
  rfl

/-- C2 amended: a missing required column aborts record construction
for the whole load with no row-level or partial-record recovery, but
the `KeyError` does not propagate out of the Loader: it is caught by
the generic `except Exception` handler, which reports it and returns an
empty sequence — `load_csv_to_dict` never lets an exception escape. -/
theorem thm_C2 :
    (∀ (filename : String) (read : String → ReadOutcome),
      ∃ v, load_csv_to_dict filename read = Except.ok v) ∧
    (∀ (filename : String) (rows : List Row) (key : String),
      rows.mapM mkRecordE = Except.error key →
      load_csv_to_dict filename (fun _ => ReadOutcome.ok rows) =
        Except.ok (["An error occurred: " ++ "\x27" ++ key ++ "\x27"], [])) := by
  constructor
  · intro filename read
    exact loadAux_ok filename read encodings
  · intro filename rows key h
    simp only [load_csv_to_dict, encodings, loadAux, h]

/-- Witness for C2 at a concrete input: the empty row is missing
`number`, and the load returns the caught-error message with no
records. -/
theorem thm_C2_witness :
    load_csv_to_dict "incident.csv" (fun _ => ReadOutcome.ok [[]]) =
      Except.ok (["An error occurred: " ++ "\x27" ++ "number" ++ "\x27"], []) :=
  thm_C2.2 "incident.csv" [[]] "number" (by rfl)

lemma loadAux_fail (filename : String) (read : String → ReadOutcome)
    (h : ∀ enc rows, read enc ≠ ReadOutcome.ok rows) :
    ∀ encs : List String,
      ∃ msgs, loadAux filename read encs = Except.ok (msgs, []) ∧ msgs ≠ [] := by
  intro encs
  induction encs with
  | nil => exact ⟨_, rfl, by simp⟩
  | cons enc rest ih =>
    cases hr : read enc with
    | ok rows => exact absurd hr (h enc rows)
    | decodeError =>
      obtain ⟨msgs, hm, hne⟩ := ih
      exact ⟨msgs, by simp only [loadAux, hr]; exact hm, hne⟩
    | fileNotFound =>
      exact ⟨["The file " ++ "\x27" ++ filename ++ "\x27" ++ " does not exist."],
        by simp only [loadAux, hr], by simp⟩
    | otherError m =>
      exact ⟨["An error occurred: " ++ m], by simp only [loadAux, hr], by simp⟩

/-- C6: whenever no encoding attempt yields rows — the file is missing,
its bytes decode under none of the tried encodings, or any other read
error occurs, in any mix — the Loader returns normally with an empty
record sequence and at least one printed message; the three concrete
failure modes produce their specific messages. -/
theorem thm_C6 :
    (∀ (filename : String) (read : String → ReadOutcome),
      (∀ enc rows, read enc ≠ ReadOutcome.ok rows) →
      ∃ msgs, load_csv_to_dict filename read = Except.ok (msgs, []) ∧ msgs ≠ []) ∧
    load_csv_to_dict "f.csv" (fun _ => ReadOutcome.fileNotFound) =
      Except.ok (["The file " ++ "\x27" ++ "f.csv" ++ "\x27" ++ " does not exist."], []) ∧
    load_csv_to_dict "f.csv" (fun _ => ReadOutcome.decodeError) =
      Except.ok (["Failed to read the file with any of the tried encodings."], []) ∧
    (∀ m, load_csv_to_dict "f.csv" (fun _ => ReadOutcome.otherError m) =
      Except.ok (["An error occurred: " ++ m], [])) := by
  refine ⟨?_, by rfl, by rfl, fun m => by rfl⟩
  intro filename read h
  exact loadAux_fail filename read h encodings

/-- Witness for C6: a permanently missing file yields a non-empty
message list and no records. -/
theorem thm_C6_witness :
    ∃ msgs, load_csv_to_dict "incident.csv" (fun _ => ReadOutcome.fileNotFound) =
      Except.ok (msgs, []) ∧ msgs ≠ [] :=
  thm_C6.1 "incident.csv" (fun _ => ReadOutcome.fileNotFound)
    (fun _ _ h => ReadOutcome.noConfusion h)

lemma dtLtb_iff (a b : PyDateTime) :
    dtLtb a b = true ↔
      (a.year < b.year ∨ (a.year = b.year ∧ (a.month < b.month ∨
        (a.month = b.month ∧ (a.day < b.day ∨ (a.day = b.day ∧
        (a.hour < b.hour ∨ (a.hour = b.hour ∧ (a.minute < b.minute ∨
        (a.minute = b.minute ∧ a.second < b.second)))))))))) := by
  unfold dtLtb
  split_ifs <;> simp_all

lemma dtLtb_irrefl (a : PyDateTime) : dtLtb a a = false := by
  have h : ¬ dtLtb a a = true := by
    rw [dtLtb_iff]
    omega
  exact bool_eq_false h

lemma dtLtb_false_trans {b x y : PyDateTime} (h1 : dtLtb b y = false)
    (h2 : dtLtb b x = true) : dtLtb x y = false := by
  apply bool_eq_false
  rw [dtLtb_iff]
  have h1' : ¬ dtLtb b y = true := by simp [h1]
  rw [dtLtb_iff] at h1' h2
  omega

lemma dtLtb_ge_trans {a b c : PyDateTime} (h1 : dtLtb a b = false)
    (h2 : dtLtb b c = false) : dtLtb a c = false := by
  apply bool_eq_false
  rw [dtLtb_iff]
  have h1' : ¬ dtLtb a b = true := by simp [h1]
  have h2' : ¬ dtLtb b c = true := by simp [h2]
  rw [dtLtb_iff] at h1' h2'
  omega

lemma pyFold_mem (l : List Record) (r : Record) :
    l.foldl (fun best x =>
      if dtLtb (resolvedKey best) (resolvedKey x) then x else best) r = r ∨
    l.foldl (fun best x =>
      if dtLtb (resolvedKey best) (resolvedKey x) then x else best) r ∈ l := by
  induction l generalizing r with
  | nil => exact Or.inl rfl
  | cons x xs ih =>
    simp only [List.foldl_cons]
    rcases ih (if dtLtb (resolvedKey r) (resolvedKey x) then x else r) with h | h
    · rw [h]
      split
      · exact Or.inr (List.mem_cons_self _ _)
      · exact Or.inl rfl
    · exact Or.inr (List.mem_cons_of_mem _ h)

lemma pyFold_ge (l : List Record) (r : Record) :
    ∀ y, (y ∈ l ∨ y = r) →
      dtLtb (resolvedKey (l.foldl (fun best x =>
        if dtLtb (resolvedKey best) (resolvedKey x) then x else best) r))
        (resolvedKey y) = false := by
  induction l generalizing r with
  | nil =>
    intro y hy
    rcases hy with h | rfl
    · exact absurd h (List.not_mem_nil y)
    · exact dtLtb_irrefl _
  | cons x xs ih =>
    intro y hy
    simp only [List.foldl_cons]
    have hmain : ∀ z, (z ∈ xs ∨ z = (if dtLtb (resolvedKey r) (resolvedKey x) then x else r)) →
        dtLtb (resolvedKey (xs.foldl (fun best x =>
          if dtLtb (resolvedKey best) (resolvedKey x) then x else best)
          (if dtLtb (resolvedKey r) (resolvedKey x) then x else r)))
          (resolvedKey z) = false := ih _
    have hfx_ge_x : dtLtb (resolvedKey (if dtLtb (resolvedKey r) (resolvedKey x) then x else r))
        (resolvedKey x) = false := by
      split
      · exact dtLtb_irrefl _
      · next hneg => exact bool_eq_false hneg
    have hfx_ge_r : dtLtb (resolvedKey (if dtLtb (resolvedKey r) (resolvedKey x) then x else r))
        (resolvedKey r) = false := by
      split
      · next hpos =>
        apply bool_eq_false
        rw [dtLtb_iff]
        rw [dtLtb_iff] at hpos
        omega
      · exact dtLtb_irrefl _
    have hres_ge_fx := hmain _ (Or.inr rfl)
    rcases hy with hmem | rfl
    · rcases List.mem_cons.mp hmem with rfl | hxs
      · exact dtLtb_ge_trans hres_ge_fx hfx_ge_x
      · exact hmain _ (Or.inl hxs)
    · exact dtLtb_ge_trans hres_ge_fx hfx_ge_r

lemma get_most_recent_spec (records : List Record)
    (h : ∃ r ∈ records, r.resolved_at.isSome = true) :
    ∃ m dt, get_most_recent_record records = some m ∧ m ∈ records ∧
      m.resolved_at = some dt ∧
      ∀ r ∈ records, ∀ d, r.resolved_at = some d → dtLtb dt d = false := by
  obtain ⟨r0, hr0mem, hr0some⟩ := h
  have hfil : r0 ∈ records.filter (fun r => r.resolved_at.isSome) :=
    List.mem_filter.mpr ⟨hr0mem, hr0some⟩
  rcases hl : records.filter (fun r => r.resolved_at.isSome) with _ | ⟨x, xs⟩
  · rw [hl] at hfil
    exact absurd hfil (List.not_mem_nil r0)
  · set m := xs.foldl (fun best x =>
      if dtLtb (resolvedKey best) (resolvedKey x) then x else best) x with hm
    have hmmem : m ∈ records.filter (fun r => r.resolved_at.isSome) := by
      rw [hl]
      rcases pyFold_mem xs x with h | h
      · rw [hm, h]
        exact List.mem_cons_self _ _
      · exact List.mem_cons_of_mem _ h
    have hmsome : m.resolved_at.isSome = true := (List.mem_filter.mp hmmem).2
    rcases hdt : m.resolved_at with _ | dt
    · rw [hdt] at hmsome
      exact absurd hmsome (by simp)
    · refine ⟨m, dt, ?_, (List.mem_filter.mp hmmem).1, hdt, ?_⟩
      · unfold get_most_recent_record pyMaxByResolved
        rw [hl]
      · intro r hrmem d hrd
        have hrfil : r ∈ records.filter (fun r => r.resolved_at.isSome) :=
          List.mem_filter.mpr ⟨hrmem, by rw [hrd]; rfl⟩
        rw [hl] at hrfil
        have hge : dtLtb (resolvedKey m) (resolvedKey r) = false := by
          rw [hm]
          rcases List.mem_cons.mp hrfil with heq | hxs
          · rw [heq]
            exact pyFold_ge xs x x (Or.inr rfl)
          · exact pyFold_ge xs x r (Or.inl hxs)
        rw [show resolvedKey m = dt by rw [resolvedKey, hdt]; rfl,
          show resolvedKey r = d by rw [resolvedKey, hrd]; rfl] at hge
        exact hge

lemma get_most_recent_none (records : List Record)
    (h : ∀ r ∈ records, r.resolved_at = none) :
    get_most_recent_record records = none := by
  unfold get_most_recent_record
  have : records.filter (fun r => r.resolved_at.isSome) = [] := by
    rw [List.filter_eq_nil_iff]
    intro r hr
    rw [h r hr]
    simp
  rw [this]
  rfl

lemma print_record_none_iff (r : Record) (b : Bool) :
    print_record r b = none ↔ r.opened_at = none := by
  rcases hdt : r.opened_at with _ | dt
  · simp [print_record, hdt]
  · simp only [print_record, hdt]
    constructor
    · intro h
      split at h <;> exact Option.noConfusion h
    · intro h
      exact Option.noConfusion h

lemma printBlockWith_sep (r : Record) (dt : PyDateTime) :
    ∃ p, printBlockWith r dt = p ++ sepBlock := ⟨_, rfl⟩

lemma printBlockWithout_sep (r : Record) (dt : PyDateTime) :
    ∃ p, printBlockWithout r dt = p ++ sepBlock := ⟨_, rfl⟩

lemma print_record_ends_sep (r : Record) (b : Bool) (s : String)
    (h : print_record r b = some s) : ∃ p, s = p ++ sepBlock := by
  rcases hdt : r.opened_at with _ | dt
  · rw [(print_record_none_iff r b).mpr hdt] at h
    exact Option.noConfusion h
  · simp only [print_record, hdt] at h
    split at h
    · obtain ⟨p, hp⟩ := printBlockWith_sep r dt
      exact ⟨p, by rw [← Option.some.inj h, hp]⟩
    · obtain ⟨p, hp⟩ := printBlockWithout_sep r dt
      exact ⟨p, by rw [← Option.some.inj h, hp]⟩

lemma writeBlocks_all (records : List Record)
    (h : ∀ r ∈ records, r.opened_at ≠ none) :
    writeBlocks records = (blocksConcat records, true) := by
  induction records with
  | nil => rfl
  | cons r rs ih =>
    have hr := h r (List.mem_cons_self r rs)
    rcases hpr : print_record r true with _ | block
    · exact absurd ((print_record_none_iff r true).mp hpr) hr
    · have ih' := ih fun x hx => h x (List.mem_cons_of_mem _ hx)
      simp only [writeBlocks, hpr, ih', blocksConcat]
      rfl

lemma strftimeFilename_ne_empty (dt : PyDateTime) : strftimeFilename dt ≠ "" := by
  intro h
  have hlen := congrArg String.length h
  simp only [strftimeFilename, String.length_append] at hlen
  have h1 : ("-" : String).length = 1 := rfl
  have h2 : ("_" : String).length = 1 := rfl
  rw [h1, h2] at hlen
  simp at hlen

/-- C5: `get_most_recent_record` returns a record of the list with the
latest non-null `resolved_at` (records with a null `resolved_at` are
ignored); on the spec's two examples it returns the 2024-03-05 record,
also when the other row's `resolved_at` is null. -/
theorem thm_C5 :
    (∀ records : List Record, (∃ r ∈ records, r.resolved_at.isSome = true) →
      ∃ m dt, get_most_recent_record records = some m ∧ m ∈ records ∧
        m.resolved_at = some dt ∧
        ∀ r ∈ records, ∀ d, r.resolved_at = some d → dtLtb dt d = false) ∧
    get_most_recent_record [recJan, recMar] = some recMar ∧
    get_most_recent_record [recNullResolved, recMar] = some recMar := by
  refine ⟨get_most_recent_spec, by decide, by decide⟩

/-- Witness for C5: on the singleton list the general part yields that
record as the most recent one. -/
theorem thm_C5_witness :
    ∃ m dt, get_most_recent_record [recMar] = some m ∧ m ∈ [recMar] ∧
      m.resolved_at = some dt ∧
      ∀ r ∈ [recMar], ∀ d, r.resolved_at = some d → dtLtb dt d = false :=
  thm_C5.1 [recMar] ⟨recMar, List.mem_singleton.mpr rfl, by decide⟩

/-- C7 counterexample: a non-empty list whose single record has a
non-null `resolved_at` but a null `opened_at` — `print_record` raises
inside the write loop, the exception is caught, and the file ends up
empty with the loop not completed, so not all records are written. -/
theorem thm_C7_counterexample :
    save_to_text [recNullOpened] =
      some ⟨"2024-01-01_10-00-00.txt", "", false⟩ ∧
    recNullOpened.resolved_at = some ⟨2024, 1, 1, 10, 0, 0⟩ ∧
    print_record recNullOpened true = none := by
  exact ⟨by decide, by decide, by decide⟩

/-- C7 amended: given a non-empty sequence of records with at least one
non-null `resolved_at` AND a non-null `opened_at` on every record (so
no block formatting raises), `save_to_text` writes all records in their
original order — the concatenation of their `print_record` blocks, each
of which ends with the fixed separator line — to the file named by the
latest non-null `resolved_at` formatted `YYYY-MM-DD_HH-MM-SS` plus
`.txt`. -/
theorem thm_C7 : ∀ records : List Record,
    (∃ r ∈ records, r.resolved_at.isSome = true) →
    (∀ r ∈ records, r.opened_at ≠ none) →
    ∃ m dt, get_most_recent_record records = some m ∧ m.resolved_at = some dt ∧
      (∀ r ∈ records, ∀ d, r.resolved_at = some d → dtLtb dt d = false) ∧
      save_to_text records =
        some ⟨strftimeFilename dt ++ ".txt", blocksConcat records, true⟩ ∧
      (∀ r ∈ records, ∃ p, (print_record r true).getD "" = p ++ sepBlock) := by
  intro records hres hop
  obtain ⟨m, dt, hget, hmem, hdt, hmax⟩ := get_most_recent_spec records hres
  refine ⟨m, dt, hget, hdt, hmax, ?_, ?_⟩
  · simp only [save_to_text, hget, hdt]
    rw [writeBlocks_all records hop]
    rw [if_neg (strftimeFilename_ne_empty dt)]
  · intro r hr
    rcases hpr : print_record r true with _ | s
    · exact absurd ((print_record_none_iff r true).mp hpr) (hop r hr)
    · obtain ⟨p, hp⟩ := print_record_ends_sep r true s hpr
      exact ⟨p, hp⟩

/-- Witness for C7: the singleton list of the January record. -/
theorem thm_C7_witness :
    ∃ m dt, get_most_recent_record [recJan] = some m ∧ m.resolved_at = some dt ∧
      (∀ r ∈ [recJan], ∀ d, r.resolved_at = some d → dtLtb dt d = false) ∧
      save_to_text [recJan] =
        some ⟨strftimeFilename dt ++ ".txt", blocksConcat [recJan], true⟩ ∧
      (∀ r ∈ [recJan], ∃ p, (print_record r true).getD "" = p ++ sepBlock) :=
  thm_C7 [recJan] ⟨recJan, List.mem_singleton.mpr rfl, by decide⟩
    (by intro r hr; rw [List.mem_singleton.mp hr]; decide)

/-- C10: the `'unknown'` fallback of `save_to_text` is unreachable —
when some record has a non-null `resolved_at` the formatted timestamp
is a non-empty string, so the filename is the timestamp plus `.txt`;
and when no record has a non-null `resolved_at`, `save_to_text` raises
(`None.resolved_at` dereference, modelled as `none`) before any file is
opened or written, because the filename derivation runs outside the
guarded write block. -/
theorem thm_C10 :
    (∀ records : List Record, (∃ r ∈ records, r.resolved_at.isSome = true) →
      ∃ m dt, get_most_recent_record records = some m ∧ m.resolved_at = some dt ∧
        strftimeFilename dt ≠ "" ∧
        save_to_text records = some ⟨strftimeFilename dt ++ ".txt",
          (writeBlocks records).1, (writeBlocks records).2⟩) ∧
    (∀ records : List Record, (∀ r ∈ records, r.resolved_at = none) →
      save_to_text records = none) := by
  constructor
  · intro records hres
    obtain ⟨m, dt, hget, hmem, hdt, hmax⟩ := get_most_recent_spec records hres
    refine ⟨m, dt, hget, hdt, strftimeFilename_ne_empty dt, ?_⟩
    simp only [save_to_text, hget, hdt]
    rw [if_neg (strftimeFilename_ne_empty dt)]
  · intro records h
    unfold save_to_text
    rw [get_most_recent_none records h]

/-- Witness for C10: one record with a null `resolved_at` — the writer
crashes before opening a file. -/
theorem thm_C10_witness : save_to_text [recNullResolved] = none :=
  thm_C10.2 [recNullResolved]
    (by intro r hr; rw [List.mem_singleton.mp hr]; decide)

lemma length_dropWhile_le (p : Char → Bool) : ∀ l : List Char,
    (l.dropWhile p).length ≤ l.length := by
  intro l
  induction l with
  | nil => simp
  | cons a as ih =>
    rw [List.dropWhile_cons]
    split
    · exact Nat.le_succ_of_le ih
    · simp

lemma dropLit_length : ∀ {p l r : List Char}, dropLit p l = some r →
    r.length + p.length = l.length := by
  intro p
  induction p with
  | nil =>
    intro l r h
    simp only [dropLit] at h
    rw [← Option.some.inj h]
    simp
  | cons c ps ih =>
    intro l r h
    cases l with
    | nil => exact Option.noConfusion h
    | cons a as =>
      simp only [dropLit] at h
      split at h
      · have := ih h
        simp only [List.length_cons]
        omega
      · exact Option.noConfusion h

lemma matchEscAt_length : ∀ {l r : List Char}, matchEscAt l = some r →
    r.length < l.length := by
  intro l r h
  unfold matchEscAt at h
  split at h
  · exact Option.noConfusion h
  · next r1 heq1 =>
    have hl1 : r1.length + escLit1.length = l.length := dropLit_length heq1
    split at h
    · exact Option.noConfusion h
    · next c cs =>
      split at h
      · split at h
        · exact Option.noConfusion h
        · next r2 heq2 =>
          have hl2 : r2.length + escLit2.length = ((c :: cs).dropWhile isDig).length :=
            dropLit_length heq2
          have hl3 : ((c :: cs).dropWhile isDig).length ≤ (c :: cs).length :=
            length_dropWhile_le isDig (c :: cs)
          split at h
          · exact Option.noConfusion h
          · next c2 c2s =>
            split at h
            · exact Option.noConfusion h
            · split at h
              · next r3 heq3 =>
                have hl4 : ('\n' :: r3).length ≤ (c2 :: c2s).length := by
                  rw [← heq3]
                  exact length_dropWhile_le _ _
                rw [← Option.some.inj h]
                have h12 : escLit1.length = 12 := rfl
                simp only [List.length_cons] at *
                omega
              · exact Option.noConfusion h
      · exact Option.noConfusion h

lemma subEscAux_congr : ∀ f g l, l.length ≤ f → l.length ≤ g →
    subEscAux f l = subEscAux g l := by
  intro f
  induction f with
  | zero =>
    intro g l hf _
    have : l = [] := List.eq_nil_of_length_eq_zero (Nat.le_zero.mp hf)
    subst this
    cases g <;> rfl
  | succ f ih =>
    intro g l hf hg
    cases l with
    | nil => cases g <;> rfl
    | cons c cs =>
      cases g with
      | zero => simp at hg
      | succ g =>
        simp only [subEscAux]
        cases hm : matchEscAt (c :: cs) with
        | some rest =>
          have hlt := matchEscAt_length hm
          simp only [List.length_cons] at hf hg hlt
          exact ih g rest (by omega) (by omega)
        | none =>
          simp only [List.length_cons] at hf hg
          rw [ih g cs (by omega) (by omega)]

lemma subEscAux_noEsc : ∀ f l, l.length ≤ f → noEscAnywhere l = true →
    subEscAux f l = l := by
  intro f
  induction f with
  | zero =>
    intro l hf _
    have : l = [] := List.eq_nil_of_length_eq_zero (Nat.le_zero.mp hf)
    subst this
    rfl
  | succ f ih =>
    intro l hf hn
    cases l with
    | nil => rfl
    | cons c cs =>
      simp only [noEscAnywhere, Bool.and_eq_true] at hn
      simp only [subEscAux]
      cases hm : matchEscAt (c :: cs) with
      | some rest =>
        exfalso
        have := hn.1
        rw [hm] at this
        simp at this
      | none =>
        simp only [List.length_cons] at hf
        rw [ih cs (by omega) hn.2]

lemma dropLit_self_append (p x : List Char) : dropLit p (p ++ x) = some x := by
  induction p with
  | nil => rfl
  | cons c ps ih => simp [dropLit, ih]

lemma dropWhile_append_of_all {p : Char → Bool} {ds : List Char}
    (h : ∀ c ∈ ds, p c = true) (rest : List Char) :
    (ds ++ rest).dropWhile p = rest.dropWhile p := by
  induction ds with
  | nil => rfl
  | cons c cs ih =>
    rw [List.cons_append, List.dropWhile_cons, if_pos (h c (List.mem_cons_self c cs))]
    exact ih fun x hx => h x (List.mem_cons_of_mem _ hx)

lemma dropWhile_cons_false {p : Char → Bool} {c : Char} (h : p c = false)
    (l : List Char) : (c :: l).dropWhile p = c :: l := by
  rw [List.dropWhile_cons, if_neg (by simp [h])]

lemma isEscLine_ne_nil {esc : List Char} (h : isEscLine esc) : esc ≠ [] := by
  obtain ⟨ds, t, rfl, -, -, -, -⟩ := h
  simp [escLit1]

lemma matchEscAt_escLine : ∀ {esc : List Char}, isEscLine esc → ∀ b,
    matchEscAt (esc ++ b) = some b := by
  intro esc h b
  obtain ⟨ds, t, rfl, hds, hdig, ht, hnl⟩ := h
  obtain ⟨d, ds', rfl⟩ : ∃ d ds', ds = d :: ds' := by
    cases ds with
    | nil => exact absurd rfl hds
    | cons d ds' => exact ⟨d, ds', rfl⟩
  obtain ⟨t0, t', rfl⟩ : ∃ t0 t', t = t0 :: t' := by
    cases t with
    | nil => exact absurd rfl ht
    | cons t0 t' => exact ⟨t0, t', rfl⟩
  have hshape : (escLit1 ++ (d :: ds') ++ escLit2 ++ (t0 :: t') ++ ['\n']) ++ b =
      escLit1 ++ (d :: (ds' ++ (escLit2 ++ (t0 :: (t' ++ ('\n' :: b)))))) := by
    simp
  rw [hshape]
  unfold matchEscAt
  rw [dropLit_self_append]
  have hd : isDig d = true := hdig d (List.mem_cons_self d ds')
  have hdw : (d :: (ds' ++ (escLit2 ++ (t0 :: (t' ++ ('\n' :: b)))))).dropWhile isDig =
      escLit2 ++ (t0 :: (t' ++ ('\n' :: b))) := by
    rw [show (d :: (ds' ++ (escLit2 ++ (t0 :: (t' ++ ('\n' :: b)))))) =
        ((d :: ds') ++ (escLit2 ++ (t0 :: (t' ++ ('\n' :: b))))) from rfl]
    rw [dropWhile_append_of_all hdig]
    rw [show escLit2 ++ (t0 :: (t' ++ ('\n' :: b))) =
        ' ' :: ("minutes to ".data ++ (t0 :: (t' ++ ('\n' :: b)))) from rfl]
    exact dropWhile_cons_false rfl _
  dsimp only
  rw [if_pos hd, hdw]
  rw [show escLit2 ++ (t0 :: (t' ++ ('\n' :: b))) =
      escLit2 ++ (t0 :: (t' ++ ('\n' :: b))) from rfl, dropLit_self_append]
  dsimp only
  have ht0 : ¬ t0 = '\n' := fun hc => hnl (hc ▸ List.mem_cons_self t0 t')
  rw [if_neg ht0]
  have hdw2 : (t0 :: (t' ++ ('\n' :: b))).dropWhile (fun x => !(x = '\n' : Bool)) =
      '\n' :: b := by
    rw [show (t0 :: (t' ++ ('\n' :: b))) = ((t0 :: t') ++ ('\n' :: b)) from rfl]
    rw [@dropWhile_append_of_all (fun x => !(x = '\n' : Bool)) (t0 :: t')
      (fun c hc => by
        simp only [Bool.not_eq_true', decide_eq_false_iff_not]
        intro hc2
        exact hnl (hc2 ▸ hc)) ('\n' :: b)]
    exact dropWhile_cons_false (by simp) _
  rw [hdw2]
  rfl

lemma subEscAux_prefix : ∀ (a : List Char) (f : Nat) (esc b : List Char),
    (a ++ esc ++ b).length ≤ f → isEscLine esc →
    (∀ a₂, a₂ ≠ [] → a₂ <:+ a → matchEscAt (a₂ ++ esc ++ b) = none) →
    subEscAux f (a ++ esc ++ b) = a ++ subEsc b := by
  intro a
  induction a with
  | nil =>
    intro f esc b hf hesc _
    obtain ⟨e, es, rfl⟩ : ∃ e es, esc = e :: es := by
      cases esc with
      | nil => exact absurd rfl (isEscLine_ne_nil hesc)
      | cons e es => exact ⟨e, es, rfl⟩
    simp only [List.nil_append] at hf ⊢
    obtain ⟨f', rfl⟩ : ∃ f', f = f' + 1 := by
      cases f with
      | zero => simp at hf
      | succ f' => exact ⟨f', rfl⟩
    rw [show (e :: es) ++ b = e :: (es ++ b) from rfl]
    simp only [subEscAux]
    rw [show e :: (es ++ b) = (e :: es) ++ b from rfl, matchEscAt_escLine hesc b]
    exact subEscAux_congr f' b.length b (by simp at hf; omega) le_rfl
  | cons c a' ih =>
    intro f esc b hf hesc hnone
    obtain ⟨f', rfl⟩ : ∃ f', f = f' + 1 := by
      cases f with
      | zero => simp at hf
      | succ f' => exact ⟨f', rfl⟩
    rw [show ((c :: a') ++ esc ++ b) = c :: (a' ++ esc ++ b) from rfl]
    simp only [subEscAux]
    rw [show c :: (a' ++ esc ++ b) = ((c :: a') ++ esc ++ b) from rfl]
    rw [hnone (c :: a') (by simp) (List.suffix_refl _)]
    rw [show ((c :: a') ++ esc ++ b) = c :: (a' ++ esc ++ b) from rfl] at hf
    rw [ih f' esc b (by simp only [List.length_cons] at hf; omega) hesc
      (fun a₂ h2 hsuf => hnone a₂ h2 (hsuf.trans (List.suffix_cons c a')))]
    rfl

/-- The top-level removal equation: with a full escalation-regex match
`esc` somewhere in the string and no match starting inside the prefix
`a`, `re.sub` removes `esc` and continues after it. -/
lemma subEsc_removes (a esc b : List Char) (hesc : isEscLine esc)
    (hnone : ∀ a₂, a₂ ≠ [] → a₂ <:+ a → matchEscAt (a₂ ++ esc ++ b) = none) :
    subEsc (a ++ esc ++ b) = a ++ subEsc b :=
  subEscAux_prefix a (a ++ esc ++ b).length esc b le_rfl hesc hnone

/-- C8: the escalation-regex substitution removes every occurrence of
`Escalate in <digits> minutes to <non-empty text><newline>` — when the
text before an occurrence contains no match of its own, the occurrence
is deleted (newline included) and scanning continues after it; a string
with no match anywhere is returned unchanged; and concretely,
`"Escalate in 30 minutes to Team X\n"` is removed while the unrelated
lines around it are untouched. -/
theorem thm_C8 :
    (∀ a esc b : List Char, isEscLine esc →
      (∀ a₂, a₂ ≠ [] → a₂ <:+ a → matchEscAt (a₂ ++ esc ++ b) = none) →
      subEsc (a ++ esc ++ b) = a ++ subEsc b) ∧
    (∀ l : List Char, noEscAnywhere l = true → subEsc l = l) ∧
    isEscLine "Escalate in 30 minutes to Team X\n".data ∧
    subEscS "Keep this line\nEscalate in 30 minutes to Team X\nAlso keep\n" =
      "Keep this line\nAlso keep\n" ∧
    subEscS "Escalate in 30 minutes to Team X\n" = "" := by
  refine ⟨subEsc_removes, ?_, ?_, by decide, by decide⟩
  · intro l h
    exact subEscAux_noEsc l.length l le_rfl h
  · exact ⟨['3', '0'], "Team X".data, by decide, by decide, by decide, by decide,
      by decide⟩

/-- Witness for C8: a string with no escalation match is unchanged. -/
theorem thm_C8_witness :
    subEsc "No escalation lines here\n".data = "No escalation lines here\n".data :=
  thm_C8.2.1 "No escalation lines here\n".data (by decide)

lemma isDig_cases {c : Char} (h : isDig c = true) :
    c = '0' ∨ c = '1' ∨ c = '2' ∨ c = '3' ∨ c = '4' ∨ c = '5' ∨ c = '6' ∨
      c = '7' ∨ c = '8' ∨ c = '9' := by
  simpa [isDig, or_assoc] using h

lemma digitVal_le_nine {c : Char} (h : isDig c = true) : digitVal c ≤ 9 := by
  rcases isDig_cases h with rfl|rfl|rfl|rfl|rfl|rfl|rfl|rfl|rfl|rfl <;> decide

lemma isPySpace_of_isDig {c : Char} (h : isDig c = true) : isPySpace c = false := by
  rcases isDig_cases h with rfl|rfl|rfl|rfl|rfl|rfl|rfl|rfl|rfl|rfl <;> decide

set_option maxHeartbeats 4000000 in
lemma pSec_two {s1 s2 : Char} (h1 : isDig s1 = true) (h2 : isDig s2 = true)
    (hv : digitVal s1 * 10 + digitVal s2 ≤ 59) :
    pSec [s1, s2] = some (digitVal s1 * 10 + digitVal s2, []) := by
  rcases isDig_cases h1 with rfl|rfl|rfl|rfl|rfl|rfl|rfl|rfl|rfl|rfl <;>
    rcases isDig_cases h2 with rfl|rfl|rfl|rfl|rfl|rfl|rfl|rfl|rfl|rfl <;>
    first
      | decide
      | exact absurd hv (by decide)

set_option maxHeartbeats 4000000 in
lemma pMinSec_two {n1 n2 : Char} {rest : List Char} {sv : Nat} {rrest : List Char}
    (h1 : isDig n1 = true) (h2 : isDig n2 = true)
    (hv : digitVal n1 * 10 + digitVal n2 ≤ 59)
    (hsec : pSec rest = some (sv, rrest)) :
    pMinSec (n1 :: n2 :: ':' :: rest) =
      some (digitVal n1 * 10 + digitVal n2, sv, rrest) := by
  rcases isDig_cases h1 with rfl|rfl|rfl|rfl|rfl|rfl|rfl|rfl|rfl|rfl <;>
    first
      | (simp only [pMinSec]
         rw [if_pos (by rw [h2]; decide)]
         simp only [pColon, Option.bind]
         rw [hsec]
         rfl)
      | (exact absurd hv (by
          have h9 := digitVal_le_nine h2
          have e6 : digitVal '6' = 6 := rfl
          have e7 : digitVal '7' = 7 := rfl
          have e8 : digitVal '8' = 8 := rfl
          have e9 : digitVal '9' = 9 := rfl
          omega))

set_option maxHeartbeats 4000000 in
lemma pHourMS_two {a b : Char} {rest : List Char} {mv sv : Nat} {rrest : List Char}
    (h1 : isDig a = true) (h2 : isDig b = true)
    (hv : digitVal a * 10 + digitVal b ≤ 23)
    (hmin : pMinSec rest = some (mv, sv, rrest)) :
    pHourMS (a :: b :: ':' :: rest) =
      some (digitVal a * 10 + digitVal b, mv, sv, rrest) := by
  rcases isDig_cases h1 with rfl|rfl|rfl|rfl|rfl|rfl|rfl|rfl|rfl|rfl <;>
    rcases isDig_cases h2 with rfl|rfl|rfl|rfl|rfl|rfl|rfl|rfl|rfl|rfl <;>
    first
      | (simp only [pHourMS]
         rw [if_pos (by decide)]
         simp only [pColon, Option.bind]
         rw [hmin]
         rfl)
      | (simp only [pHourMS]
         rw [if_neg (by decide), Option.none_orElse]
         rw [if_pos (by decide)]
         simp only [pColon, Option.bind]
         rw [hmin]
         rfl)
      | (exact absurd hv (by decide))

lemma pWsTime_cons {a : Char} {rest : List Char} (h1 : isDig a = true) :
    pWsTime (' ' :: a :: rest) = pHourMS (a :: rest) := by
  simp only [pWsTime]
  rw [if_pos (by decide)]
  rw [dropWhile_cons_false (isPySpace_of_isDig h1)]

set_option maxHeartbeats 4000000 in
lemma pDayRest_two {a b : Char} {rest : List Char} {hh mv sv : Nat}
    {rrest : List Char}
    (h1 : isDig a = true) (h2 : isDig b = true)
    (hv1 : 1 ≤ digitVal a * 10 + digitVal b)
    (hv2 : digitVal a * 10 + digitVal b ≤ 31)
    (hws : pWsTime (' ' :: rest) = some (hh, mv, sv, rrest)) :
    pDayRest (a :: b :: ' ' :: rest) =
      some (digitVal a * 10 + digitVal b, hh, mv, sv, rrest) := by
  rcases isDig_cases h1 with rfl|rfl|rfl|rfl|rfl|rfl|rfl|rfl|rfl|rfl <;>
    rcases isDig_cases h2 with rfl|rfl|rfl|rfl|rfl|rfl|rfl|rfl|rfl|rfl <;>
    first
      | (simp only [pDayRest]
         rw [if_pos (by decide)]
         rw [hws]
         rfl)
      | (simp only [pDayRest]
         rw [if_neg (by decide), Option.none_orElse]
         rw [if_pos (by decide)]
         rw [hws]
         rfl)
      | (simp only [pDayRest]
         rw [if_neg (by decide), Option.none_orElse]
         rw [if_neg (by decide), Option.none_orElse]
         rw [if_pos (by decide)]
         rw [hws]
         rfl)
      | (exact absurd hv1 (by decide))
      | (exact absurd hv2 (by decide))

set_option maxHeartbeats 4000000 in
lemma pMonthRest_two {a b : Char} {rest : List Char} {dv hh mv sv : Nat}
    {rrest : List Char}
    (h1 : isDig a = true) (h2 : isDig b = true)
    (hv1 : 1 ≤ digitVal a * 10 + digitVal b)
    (hv2 : digitVal a * 10 + digitVal b ≤ 12)
    (hday : pDayRest rest = some (dv, hh, mv, sv, rrest)) :
    pMonthRest (a :: b :: '-' :: rest) =
      some (digitVal a * 10 + digitVal b, dv, hh, mv, sv, rrest) := by
  rcases isDig_cases h1 with rfl|rfl|rfl|rfl|rfl|rfl|rfl|rfl|rfl|rfl <;>
    rcases isDig_cases h2 with rfl|rfl|rfl|rfl|rfl|rfl|rfl|rfl|rfl|rfl <;>
    first
      | (simp only [pMonthRest]
         rw [if_pos (by decide)]
         simp only [pDash, Option.bind]
         rw [hday]
         rfl)
      | (simp only [pMonthRest]
         rw [if_neg (by decide), Option.none_orElse]
         rw [if_pos (by decide)]
         simp only [pDash, Option.bind]
         rw [hday]
         rfl)
      | (exact absurd hv1 (by decide))
      | (exact absurd hv2 (by decide))

lemma strptimeFields_cons {y1 y2 y3 y4 : Char} {rest : List Char}
    {mo dv hh mv sv : Nat} {rrest : List Char}
    (hy1 : isDig y1 = true) (hy2 : isDig y2 = true) (hy3 : isDig y3 = true)
    (hy4 : isDig y4 = true)
    (hmon : pMonthRest rest = some (mo, dv, hh, mv, sv, rrest)) :
    strptimeFields (y1 :: y2 :: y3 :: y4 :: '-' :: rest) =
      some (digitVal y1 * 1000 + digitVal y2 * 100 + digitVal y3 * 10 +
        digitVal y4, mo, dv, hh, mv, sv, rrest) := by
  simp only [strptimeFields]
  rw [if_pos (by rw [hy1, hy2, hy3, hy4]; decide)]
  simp only [pDash, Option.bind]
  rw [hmon]
  rfl

lemma daysInMonth_le_31 (y m : Nat) : daysInMonth y m ≤ 31 := by
  unfold daysInMonth
  split_ifs <;> omega

set_option maxHeartbeats 1000000 in
lemma spec_parse_refines (s : String) (dt : PyDateTime)
    (h : specWellFormedTimestamp s = some dt) : parse_date s = some dt := by
  unfold specWellFormedTimestamp at h
  split at h
  · next y1 y2 y3 y4 c1 m1 m2 c2 d1 d2 c3 a1 a2 c4 n1 n2 c5 s1 s2 heq =>
    split at h
    · next hA =>
      split at h
      · next hB =>
        simp only [Bool.and_eq_true, decide_eq_true_eq] at hA hB
        obtain ⟨⟨⟨⟨⟨⟨⟨⟨⟨⟨hc1, hc2⟩, hc3⟩, hc4⟩, hc5⟩,
          ⟨⟨⟨hy1, hy2⟩, hy3⟩, hy4⟩⟩, ⟨hm1, hm2⟩⟩, ⟨hd1, hd2⟩⟩,
          ⟨ha1, ha2⟩⟩, ⟨hn1, hn2⟩⟩, ⟨hs1, hs2⟩⟩ := hA
        obtain ⟨⟨⟨⟨⟨⟨⟨hb1, hb2⟩, hb3⟩, hb4⟩, hb5⟩, hb6⟩, hb7⟩, hb8⟩ := hB
        subst hc1 hc2 hc3 hc4 hc5
        have hsec := pSec_two hs1 hs2 hb8
        have hmin := pMinSec_two hn1 hn2 hb7 hsec
        have hhour := pHourMS_two ha1 ha2 hb6 hmin
        have hws : pWsTime (' ' :: a1 :: a2 :: ':' :: n1 :: n2 :: ':' ::
            s1 :: s2 :: []) = some (digitVal a1 * 10 + digitVal a2,
            digitVal n1 * 10 + digitVal n2,
            digitVal s1 * 10 + digitVal s2, []) := by
          rw [pWsTime_cons ha1]
          exact hhour
        have hday := pDayRest_two hd1 hd2 hb4
          (le_trans hb5 (daysInMonth_le_31 _ _)) hws
        have hmon := pMonthRest_two hm1 hm2 hb2 hb3 hday
        have hfields := strptimeFields_cons hy1 hy2 hy3 hy4 hmon
        unfold parse_date pyStrptime
        rw [heq, hfields]
        dsimp only
        rw [if_pos rfl]
        dsimp only
        rw [if_pos (show (1 ≤ digitVal y1 * 1000 + digitVal y2 * 100 +
            digitVal y3 * 10 + digitVal y4 &&
            digitVal y1 * 1000 + digitVal y2 * 100 + digitVal y3 * 10 +
              digitVal y4 ≤ 9999 &&
            1 ≤ digitVal m1 * 10 + digitVal m2 &&
            digitVal m1 * 10 + digitVal m2 ≤ 12 &&
            1 ≤ digitVal d1 * 10 + digitVal d2 &&
            digitVal d1 * 10 + digitVal d2 ≤
              daysInMonth (digitVal y1 * 1000 + digitVal y2 * 100 +
                digitVal y3 * 10 + digitVal y4)
                (digitVal m1 * 10 + digitVal m2) &&
            digitVal a1 * 10 + digitVal a2 ≤ 23 &&
            digitVal n1 * 10 + digitVal n2 ≤ 59 &&
            digitVal s1 * 10 + digitVal s2 ≤ 59) = true by
          simp only [Bool.and_eq_true, decide_eq_true_eq]
          have hq1 := digitVal_le_nine hy1
          have hq2 := digitVal_le_nine hy2
          have hq3 := digitVal_le_nine hy3
          have hq4 := digitVal_le_nine hy4
          exact ⟨⟨⟨⟨⟨⟨⟨⟨hb1, by omega⟩, hb2⟩, hb3⟩, hb4⟩, hb5⟩, hb6⟩,
            hb7⟩, hb8⟩)]
        exact h
      · exact Option.noConfusion h
    · exact Option.noConfusion h
  · exact Option.noConfusion h

/-- C4 counterexample: `"2024-5-1 08:00:00"` is not a well-formed
`"YYYY-MM-DD HH:MM:SS"` string (month and day are not zero-padded), yet
`parse_date` does not return null on it — `strptime` accepts one-digit
months and days — refuting "returns null on any malformed string". -/
theorem thm_C4_counterexample :
    specWellFormedTimestamp "2024-5-1 08:00:00" = none ∧
    "2024-5-1 08:00:00" ≠ "" ∧
    parse_date "2024-5-1 08:00:00" = some ⟨2024, 5, 1, 8, 0, 0⟩ := by
  exact ⟨by decide, by decide, by decide⟩

/-- C4 amended: `parse_date` never raises (it always returns null or a
timestamp), returns a timestamp equal to the literal value on every
well-formed `"YYYY-MM-DD HH:MM:SS"` string, and returns null on the
empty string; but it is lenient rather than strict — some malformed
strings (non-zero-padded fields, extra whitespace) also yield
timestamps instead of null, so "malformed implies null" holds only for
strings the lenient field patterns reject. -/
theorem thm_C4 :
    (∀ (s : String) (dt : PyDateTime),
      specWellFormedTimestamp s = some dt → parse_date s = some dt) ∧
    parse_date "" = none ∧
    (∀ s : String, parse_date s = none ∨ ∃ dt, parse_date s = some dt) := by
  refine ⟨spec_parse_refines, by decide, ?_⟩
  intro s
  cases h : parse_date s with
  | none => exact Or.inl rfl
  | some dt => exact Or.inr ⟨dt, rfl⟩

/-- Witness for C4: the well-formed literal of the spec's example row
parses to exactly its literal field values. -/
theorem thm_C4_witness :
    parse_date "2024-05-01 08:00:00" = some ⟨2024, 5, 1, 8, 0, 0⟩ :=
  thm_C4.1 "2024-05-01 08:00:00" ⟨2024, 5, 1, 8, 0, 0⟩ (by decide)
